import Mathlib

/-!
Verification of `src/class/main.py` (a Streamlit chat front-end around the
Gemini API) against its natural-language specification.

The embedding is shallow:

* a conversation turn (`Msg`) is a record of two strings, modelling the
  Python dict `{"role": r, "content": c}` the program builds;
* the remote model call is an explicit parameter of type
  `String → Except String String` (`.ok text` for a successful call with
  `response.text = text`, `.error msg` for any raised exception rendered by
  `str(e)`);
* the persisted file is `Option String` (`none` = the file does not exist,
  `some s` = the file exists with contents `s`);
* `json.dump` / `json.load` are modelled byte-for-byte on the value shapes
  the program itself writes: `dumps` produces exactly CPython's default
  `json.dump` output for a list of string-keyed string-valued dicts
  (separators `", "` and `": "`, `ensure_ascii=True` escaping with lowercase
  hex), and `loads` is a genuine character-level parser for that grammar
  (arrays of objects with string values, arbitrary keys and key order,
  duplicate keys resolved last-wins as in Python, full JSON string-escape
  handling including surrogate pairs).  JSON shapes the program never
  writes (numbers, booleans, nesting) are outside the modelled grammar, as
  are lone surrogate escapes, which Lean strings cannot represent;
* Streamlit's rerun/session machinery is out of scope; the user-input
  handler of `setup_ui` (lines 90-110) is modelled as the state transformer
  `sendMessage`.
-/

/-- A conversation turn: the Python dict `{"role": r, "content": c}` built by
`ChatBot.get_response` and the `setup_ui` handler. -/
structure Msg where
  role : String
  content : String
deriving DecidableEq, Repr

/-! ## Model of `json.dump` (CPython defaults, `ensure_ascii=True`) -/

/-- Lowercase hex digit for `d < 16`, as CPython's `json` encoder emits. -/
def hexDigit (d : Nat) : Char :=
  if d < 10 then Char.ofNat (48 + d) else Char.ofNat (87 + d)

/-- The six-character escape `\uXXXX` for a code unit `n < 0x10000`. -/
def uEsc (n : Nat) : List Char :=
  ['\\', 'u', hexDigit (n / 4096 % 16), hexDigit (n / 256 % 16),
   hexDigit (n / 16 % 16), hexDigit (n % 16)]

/-- How CPython's `json.dump` (with `ensure_ascii=True`, the default used at
line 59 of `main.py`) renders one character inside a JSON string literal:
two-character escapes for quote, backslash and the five control shorthands,
`\uXXXX` for other control and all non-ASCII characters, with a UTF-16
surrogate pair for code points above `0xFFFF`. -/
def escChar (c : Char) : List Char :=
  if c = '"' then ['\\', '"']
  else if c = '\\' then ['\\', '\\']
  else if c = '\n' then ['\\', 'n']
  else if c = '\r' then ['\\', 'r']
  else if c = '\t' then ['\\', 't']
  else if c.toNat = 8 then ['\\', 'b']
  else if c.toNat = 12 then ['\\', 'f']
  else if c.toNat < 32 then uEsc c.toNat
  else if c.toNat ≤ 126 then [c]
  else if c.toNat < 65536 then uEsc c.toNat
  else uEsc (55296 + (c.toNat - 65536) / 1024) ++ uEsc (56320 + (c.toNat - 65536) % 1024)

/-- A JSON string literal (quotes included) for `s`, as `json.dump` writes it. -/
def strChars (s : String) : List Char :=
  '"' :: (s.data.map escChar).flatten ++ ['"']

/-- One turn as `json.dump` writes it: the object key `role` with the role
string, then the key `content` with the content string, separated by `", "`
and `": "` (CPython's defaults; Python dicts keep insertion order, and
`get_response` / the UI handler always insert `role` before `content`). -/
def msgChars (m : Msg) : List Char :=
  '{' :: (strChars "role" ++ ':' :: ' ' :: (strChars m.role ++ ',' :: ' ' ::
    (strChars "content" ++ ':' :: ' ' :: (strChars m.content ++ ['}']))))

/-- The comma-space separated body of the JSON array (CPython's default item
separator is `", "`). -/
def dumpChars : List Msg → List Char
  | [] => []
  | [m] => msgChars m
  | m :: ms => msgChars m ++ ',' :: ' ' :: dumpChars ms

/-- `json.dump(history, f)` as called by `ChatInterface.save_history`
(line 59): the exact file contents CPython writes for a list of
`{"role": r, "content": c}` dicts. -/
def dumps (ms : List Msg) : String :=
  String.mk ('[' :: dumpChars ms ++ [']'])

/-! ## Model of `json.load` -/

/-- JSON insignificant whitespace. -/
def isWs (c : Char) : Bool :=
  c = ' ' || c = '\t' || c = '\n' || c = '\r'

/-- Drop leading JSON whitespace. -/
def skipWs : List Char → List Char
  | [] => []
  | c :: l => if isWs c then skipWs l else c :: l

/-- Numeric value of a hex digit, either case, as JSON `\uXXXX` accepts. -/
def hexVal (c : Char) : Option Nat :=
  if 48 ≤ c.toNat ∧ c.toNat ≤ 57 then some (c.toNat - 48)
  else if 97 ≤ c.toNat ∧ c.toNat ≤ 102 then some (c.toNat - 87)
  else if 65 ≤ c.toNat ∧ c.toNat ≤ 70 then some (c.toNat - 55)
  else none

/-- Value of four hex digits, big-endian. -/
def hex4 (a b c d : Char) : Option Nat :=
  match hexVal a, hexVal b, hexVal c, hexVal d with
  | some x, some y, some z, some w => some (4096 * x + 256 * y + 16 * z + w)
  | _, _, _, _ => none

/-- The single-character JSON escapes. -/
def escOf (e : Char) : Option Char :=
  if e = '"' then some '"'
  else if e = '\\' then some '\\'
  else if e = '/' then some '/'
  else if e = 'b' then some (Char.ofNat 8)
  else if e = 'f' then some (Char.ofNat 12)
  else if e = 'n' then some '\n'
  else if e = 'r' then some '\r'
  else if e = 't' then some '\t'
  else none

/-- Parse the body of a JSON string literal (opening quote already consumed)
up to and including the closing quote, returning the decoded characters and
the unconsumed tail.  Follows the JSON grammar as CPython's strict decoder
reads it: raw control characters are rejected, `\uXXXX` escapes are decoded
with surrogate-pair recombination.  Lone surrogate escapes are rejected
(CPython would produce a lone-surrogate `str`, which Lean strings cannot
represent; `dumps` never writes one). -/
def parseStrChars : List Char → Option (List Char × List Char)
  | [] => none
  | '"' :: r => some ([], r)
  | '\\' :: 'u' :: a :: b :: c :: d :: r =>
    match hex4 a b c d with
    | none => none
    | some n =>
      if n < 55296 ∨ 57344 ≤ n then
        (parseStrChars r).map fun p => (Char.ofNat n :: p.1, p.2)
      else if n < 56320 then
        match r with
        | '\\' :: 'u' :: a2 :: b2 :: c2 :: d2 :: r2 =>
          match hex4 a2 b2 c2 d2 with
          | some m =>
            if 56320 ≤ m ∧ m < 57344 then
              (parseStrChars r2).map fun p =>
                (Char.ofNat (65536 + (n - 55296) * 1024 + (m - 56320)) :: p.1, p.2)
            else none
          | none => none
        | _ => none
      else none
  | '\\' :: e :: r =>
    match escOf e with
    | some c => (parseStrChars r).map fun p => (c :: p.1, p.2)
    | none => none
  | c :: r =>
    if c.toNat < 32 then none
    else (parseStrChars r).map fun p => (c :: p.1, p.2)

/-- Parse one `"key": "value"` pair (input already whitespace-skipped). -/
def parsePair (l : List Char) : Option ((String × String) × List Char) :=
  match l with
  | '"' :: r =>
    match parseStrChars r with
    | some (k, r1) =>
      match skipWs r1 with
      | ':' :: r2 =>
        match skipWs r2 with
        | '"' :: r3 =>
          match parseStrChars r3 with
          | some (v, r4) => some ((String.mk k, String.mk v), r4)
          | none => none
        | _ => none
      | _ => none
    | none => none
  | _ => none

/-- Parse one or more comma-separated pairs; `fuel` bounds the pair count.
Returns the pairs and the unconsumed (whitespace-skipped) tail. -/
def parsePairs : Nat → List Char → Option (List (String × String) × List Char)
  | 0, _ => none
  | fuel + 1, l =>
    match parsePair l with
    | none => none
    | some (p, r) =>
      match skipWs r with
      | ',' :: r2 =>
        match parsePairs fuel (skipWs r2) with
        | some (ps, r3) => some (p :: ps, r3)
        | none => none
      | r1 => some ([p], r1)

/-- Last-wins key lookup, as a Python dict built by the JSON decoder resolves
duplicate keys. -/
def lookupLast (k : String) : List (String × String) → Option String
  | [] => none
  | (k', v) :: ps =>
    match lookupLast k ps with
    | some v' => some v'
    | none => if k' = k then some v else none

/-- Interpret a decoded object as a turn: it must carry `role` and `content`
keys (any order, last occurrence wins).  Objects without them are JSON the
program never writes; reading them back is outside the modelled grammar. -/
def msgOfPairs (ps : List (String × String)) : Option Msg :=
  match lookupLast "role" ps, lookupLast "content" ps with
  | some r, some c => some ⟨r, c⟩
  | _, _ => none

/-- Parse one object `{...}` as a turn (input already whitespace-skipped).
The pair fuel `r.length + 1` always suffices: each pair consumes at least
one character. -/
def parseMsg (l : List Char) : Option (Msg × List Char) :=
  match l with
  | '{' :: r =>
    match skipWs r with
    | '}' :: r2 =>
      match msgOfPairs [] with
      | some m => some (m, r2)
      | none => none
    | r1 =>
      match parsePairs (r1.length + 1) r1 with
      | some (ps, r2) =>
        match r2 with
        | '}' :: r3 =>
          match msgOfPairs ps with
          | some m => some (m, r3)
          | none => none
        | _ => none
      | none => none
  | _ => none

/-- Parse one or more comma-separated objects; `fuel` bounds the item count.
Returns the turns and the unconsumed (whitespace-skipped) tail. -/
def parseItems : Nat → List Char → Option (List Msg × List Char)
  | 0, _ => none
  | fuel + 1, l =>
    match parseMsg l with
    | none => none
    | some (m, r) =>
      match skipWs r with
      | ',' :: r2 =>
        match parseItems fuel (skipWs r2) with
        | some (ms, r3) => some (m :: ms, r3)
        | none => none
      | r1 => some ([m], r1)

/-- `json.load(f)` as called by `ChatInterface.load_history` (line 50),
restricted to the grammar the program writes: a JSON array of objects with
string values.  `none` models `json.load` raising `JSONDecodeError` (or the
value lying outside the modelled grammar). -/
def loads (s : String) : Option (List Msg) :=
  match skipWs s.data with
  | '[' :: r =>
    match skipWs r with
    | ']' :: r2 => if skipWs r2 = [] then some [] else none
    | r1 =>
      match parseItems (r1.length + 1) r1 with
      | some (ms, r2) =>
        match r2 with
        | ']' :: r3 => if skipWs r3 = [] then some ms else none
        | _ => none
      | none => none
  | _ => none

/-! ## Model of the program (`src/class/main.py`) -/

/-- Line 21: one turn rendered into the prompt, the f-string `role: content`. -/
def renderTurn (m : Msg) : String :=
  m.role ++ ": " ++ m.content

/-- Line 21: the conversation context, the rendered turns joined by `"\n"`. -/
def renderPrompt (h : List Msg) : String :=
  String.intercalate "\n" (h.map renderTurn)

/-- `ChatBot.get_response` (lines 14-32).  `model` is the remote call
`self.model.generate_content(...).text`: `.ok t` when it returns text `t`,
`.error e` when it raises an exception whose `str` is `e`.  Input: the
current `chat_history` and the user message.  Output: the returned string
and the updated `chat_history`.  The user turn is appended before the call;
on an exception the `except` arm returns `"Error: "` followed by the
exception text, with no rollback of the appended user turn. -/
def getResponse (model : String → Except String String) (cbHist : List Msg)
    (u : String) : String × List Msg :=
  let h1 := cbHist ++ [⟨"user", u⟩]
  match model (renderPrompt h1) with
  | .ok t => (t, h1 ++ [⟨"bot", t⟩])
  | .error e => ("Error: " ++ e, h1)

/-- The mutable state the program threads through Streamlit:
`st.session_state.history`, `self.chatbot.chat_history`, and the file
`chat_history.json` (`none` = does not exist). -/
structure AppState where
  session : List Msg
  cbHist : List Msg
  file : Option String
deriving DecidableEq, Repr

/-- `ChatInterface.load_history` (lines 46-54).  When the file exists its
contents go through `json.load`; a decode failure propagates as an exception
(`.error ()`), since nothing catches it.  When the file does not exist the
session history becomes `[]` and `chat_history` is left as it was.  On
success both histories hold the loaded turns (line 52 copies). -/
def loadHistory (file : Option String) (cb : List Msg) :
    Except Unit (List Msg × List Msg) :=
  match file with
  | none => .ok ([], cb)
  | some s =>
    match loads s with
    | some h => .ok (h, h)
    | none => .error ()

/-- `ChatInterface.save_history` (lines 56-59): overwrite the file with the
session history serialized by `json.dump`. -/
def saveHistory (st : AppState) : AppState :=
  { st with file := some (dumps st.session) }

/-- The `Clear Chat History` button handler (lines 71-75): empty both
histories and remove the file if present. -/
def clearHistory (_st : AppState) : AppState :=
  { session := [], cbHist := [], file := none }

/-- The `if user_input:` handler of `setup_ui` (lines 90-110): for a
non-empty input, append the user turn to the session history, run
`get_response` (which updates `chat_history`), append the returned string as
a `bot` turn, and save.  An empty input leaves the state unchanged (the
`if user_input:` guard). -/
def sendMessage (model : String → Except String String) (st : AppState)
    (u : String) : AppState :=
  if u = "" then st
  else
    let r := getResponse model st.cbHist u
    saveHistory
      { session := st.session ++ [⟨"user", u⟩, ⟨"bot", r.1⟩],
        cbHist := r.2,
        file := st.file }

/-- What `main` (lines 112-125) does at startup. -/
inductive MainOutcome where
  /-- The error banner is shown and `main` returns before constructing
  `ChatBot` or `ChatInterface` (lines 119-121). -/
  | configError : MainOutcome
  /-- `ChatInterface.__init__` raised while loading a malformed history
  file; nothing catches it. -/
  | crashed : MainOutcome
  /-- `ChatBot` and `ChatInterface` constructed; the app runs with this
  initial state. -/
  | launched : AppState → MainOutcome
deriving DecidableEq, Repr

/-- `main` (lines 112-125): `key` is the `GEMINI_API_KEY` environment value
(`none` when unset) and `file` the persisted history file.  The
`if not API_KEY:` branch is also taken when the variable is set to the empty
string.  (Named `mainStartup` because Lean reserves `main`.) -/
def mainStartup (key : Option String) (file : Option String) : MainOutcome :=
  match key with
  | none => .configError
  | some k =>
    if k = "" then .configError
    else
      match loadHistory file [] with
      | .ok (sess, cb) => .launched { session := sess, cbHist := cb, file := file }
      | .error _ => .crashed

/-! ## Round trip of the JSON model: helper lemmas -/

/-- A Lean `Char` is a Unicode scalar value: below the surrogate block or
above it and below `0x110000`. -/
theorem char_toNat_valid (c : Char) :
    c.toNat < 55296 ∨ (57344 ≤ c.toNat ∧ c.toNat < 1114112) := by
  have h := c.valid
  simp only [UInt32.isValidChar, Nat.isValidChar] at h
  simp only [Char.toNat]
  omega

/-- Rebuilding a character from its code point gives it back. -/
theorem char_ofNat_toNat (c : Char) : Char.ofNat c.toNat = c := by
  have h : Nat.isValidChar c.toNat := c.valid
  simp only [Char.ofNat, dif_pos h]
  cases c with
  | mk v hv =>
    simp only [Char.ofNatAux]
    congr 1

/-- Decoding an emitted hex digit gives the digit back. -/
theorem hexVal_hexDigit (d : Nat) (h : d < 16) : hexVal (hexDigit d) = some d := by
  interval_cases d <;> decide

/-- Decoding the four emitted hex digits of `n < 0x10000` gives `n` back. -/
theorem hex4_hexDigits (n : Nat) (h : n < 65536) :
    hex4 (hexDigit (n / 4096 % 16)) (hexDigit (n / 256 % 16))
      (hexDigit (n / 16 % 16)) (hexDigit (n % 16)) = some n := by
  simp only [hex4, hexVal_hexDigit _ (Nat.mod_lt _ (by omega)),
    hexVal_hexDigit _ (Nat.mod_lt _ (by omega)), Option.some.injEq]
  omega

/-- The string parser undoes the escaping of a single character, whatever
follows it. -/
theorem parseStrChars_escChar (c : Char) (rest : List Char) :
    parseStrChars (escChar c ++ rest) =
      (parseStrChars rest).map fun p => (c :: p.1, p.2) := by
  by_cases hq : c = '"'
  · subst hq
    rw [escChar]
    norm_num
    rw [parseStrChars.eq_def]
    simp [escOf]
  by_cases hb : c = '\\'
  · subst hb
    rw [escChar]
    norm_num
    rw [parseStrChars.eq_def]
    simp [escOf]
  by_cases hn : c = '\n'
  · subst hn
    rw [escChar]
    norm_num
    rw [parseStrChars.eq_def]
    simp [escOf]
  by_cases hr : c = '\r'
  · subst hr
    rw [escChar]
    norm_num
    rw [parseStrChars.eq_def]
    simp [escOf]
  by_cases ht : c = '\t'
  · subst ht
    rw [escChar]
    norm_num
    rw [parseStrChars.eq_def]
    simp [escOf]
  by_cases h8 : c.toNat = 8
  · have hc : c = Char.ofNat 8 := by rw [← char_ofNat_toNat c, h8]
    subst hc
    rw [escChar]
    rw [parseStrChars.eq_def]
    simp [escOf]
  by_cases h12 : c.toNat = 12
  · have hc : c = Char.ofNat 12 := by rw [← char_ofNat_toNat c, h12]
    subst hc
    rw [escChar]
    rw [parseStrChars.eq_def]
    simp [escOf]
  by_cases hctl : c.toNat < 32
  · have hesc : escChar c = uEsc c.toNat := by
      rw [escChar]
      simp [hq, hb, hn, hr, ht, h8, h12, hctl]
    rw [hesc, uEsc, parseStrChars.eq_def]
    simp only [List.cons_append, List.nil_append,
      hex4_hexDigits c.toNat (by omega)]
    rw [if_pos (Or.inl (by omega)), char_ofNat_toNat]
  by_cases hascii : c.toNat ≤ 126
  · have hesc : escChar c = [c] := by
      rw [escChar]
      simp [hq, hb, hn, hr, ht, h8, h12, hctl, hascii]
    rw [hesc, List.cons_append, List.nil_append, parseStrChars.eq_def]
    split
    · rename_i heq
      simp at heq
    · rename_i heq
      simp at heq
      exact absurd heq.1 hq
    · rename_i a b d e heq
      simp at heq
      exact absurd heq.1 hb
    · rename_i e r heq
      simp at heq
      exact absurd heq.1 hb
    · rename_i c2 r heq
      simp at heq
      obtain ⟨hc2, hr⟩ := heq
      subst hc2
      subst hr
      rw [if_neg (by omega)]
  by_cases hbmp : c.toNat < 65536
  · have hval := char_toNat_valid c
    have hesc : escChar c = uEsc c.toNat := by
      rw [escChar]
      simp [hq, hb, hn, hr, ht, h8, h12, hctl, hascii, hbmp]
    rw [hesc, uEsc, parseStrChars.eq_def]
    simp only [List.cons_append, List.nil_append, hex4_hexDigits c.toNat hbmp]
    rw [if_pos (by omega : c.toNat < 55296 ∨ 57344 ≤ c.toNat), char_ofNat_toNat]
  · have hval := char_toNat_valid c
    have hesc : escChar c =
        uEsc (55296 + (c.toNat - 65536) / 1024) ++ uEsc (56320 + (c.toNat - 65536) % 1024) := by
      rw [escChar]
      simp [hq, hb, hn, hr, ht, h8, h12, hctl, hascii, hbmp]
    rw [hesc, List.append_assoc]
    simp only [uEsc]
    rw [parseStrChars.eq_def]
    simp only [List.cons_append, List.nil_append,
      hex4_hexDigits (55296 + (c.toNat - 65536) / 1024) (by omega),
      hex4_hexDigits (56320 + (c.toNat - 65536) % 1024) (by omega)]
    rw [if_neg (by omega), if_pos (by omega), if_pos (by constructor <;> omega)]
    have harith : 65536 + (55296 + (c.toNat - 65536) / 1024 - 55296) * 1024 +
        (56320 + (c.toNat - 65536) % 1024 - 56320) = c.toNat := by omega
    rw [harith, char_ofNat_toNat]

/-- A string is its character list repackaged. -/
theorem string_mk_data (s : String) : String.mk s.data = s := rfl

/-- The string parser undoes the escaping of a whole character list, up to
the closing quote. -/
theorem parseStrChars_encode (l rest : List Char) :
    parseStrChars ((l.map escChar).flatten ++ '"' :: rest) = some (l, rest) := by
  induction l with
  | nil =>
    rw [List.map_nil, List.flatten_nil, List.nil_append, parseStrChars.eq_def]
    simp
  | cons c cs ih =>
    rw [List.map_cons, List.flatten_cons, List.append_assoc, parseStrChars_escChar, ih]
    rfl

/-- `skipWs` leaves a list alone when its head is not whitespace. -/
theorem skipWs_cons_false {c : Char} (l : List Char) (h : isWs c = false) :
    skipWs (c :: l) = c :: l := by
  simp [skipWs, h]

/-- `skipWs` drops a leading space. -/
theorem skipWs_space (l : List Char) : skipWs (' ' :: l) = skipWs l := by
  simp [skipWs, isWs]

/-- The pair parser undoes the serialization of one `"key": "value"` pair. -/
theorem parsePair_encode (k v : String) (rest : List Char) :
    parsePair (strChars k ++ ':' :: ' ' :: (strChars v ++ rest)) = some ((k, v), rest) := by
  simp only [strChars, List.cons_append, List.append_assoc, List.singleton_append, parsePair,
    parseStrChars_encode, skipWs, isWs, string_mk_data]
  simp [skipWs, isWs, parseStrChars_encode, string_mk_data]

/-- Cons-normalized form of `parsePair_encode`, as the pair appears after
`skipWs` has exposed its leading quote. -/
theorem parsePair_encode_cons (k v : String) (rest : List Char) :
    parsePair ('"' :: ((k.data.map escChar).flatten ++
      '"' :: ':' :: ' ' :: (strChars v ++ rest))) = some ((k, v), rest) := by
  have h := parsePair_encode k v rest
  simpa [strChars, List.cons_append, List.append_assoc, List.singleton_append] using h

/-- The pairs parser undoes the serialization of the two-pair object body
the program writes, for any sufficient fuel. -/
theorem parsePairs_encode2 (k1 v1 k2 v2 : String) (fuel : Nat) (h : 2 ≤ fuel)
    (rest : List Char) :
    parsePairs fuel (strChars k1 ++ ':' :: ' ' :: (strChars v1 ++ ',' :: ' ' ::
      (strChars k2 ++ ':' :: ' ' :: (strChars v2 ++ '}' :: rest)))) =
      some ([(k1, v1), (k2, v2)], '}' :: rest) := by
  obtain ⟨f, rfl⟩ : ∃ f, fuel = f + 2 := ⟨fuel - 2, by omega⟩
  rw [show f + 2 = (f + 1) + 1 from rfl]
  simp [parsePairs, parsePair_encode, parsePair_encode_cons, skipWs, isWs]

/-- The object parser undoes the serialization of one turn. -/
theorem parseMsg_encode (m : Msg) (rest : List Char) :
    parseMsg (msgChars m ++ rest) = some (m, rest) := by
  rw [msgChars, List.cons_append, parseMsg]
  simp [List.cons_append, List.append_assoc, List.singleton_append, List.nil_append,
    show strChars "role" = '"' :: 'r' :: 'o' :: 'l' :: 'e' :: '"' :: [] from rfl,
    show strChars "content" = '"' :: 'c' :: 'o' :: 'n' :: 't' :: 'e' :: 'n' :: 't' :: '"' :: [] from rfl,
    escChar, skipWs, isWs]
  have hp : ∀ fuel, 2 ≤ fuel →
      parsePairs fuel (strChars "role" ++ ':' :: ' ' :: (strChars m.role ++ ',' :: ' ' ::
        (strChars "content" ++ ':' :: ' ' :: (strChars m.content ++ '}' :: rest)))) =
      some ([("role", m.role), ("content", m.content)], '}' :: rest) :=
    fun fuel hf => parsePairs_encode2 "role" m.role "content" m.content fuel hf rest
  simp [List.cons_append, List.append_assoc, List.singleton_append, List.nil_append,
    show strChars "role" = '"' :: 'r' :: 'o' :: 'l' :: 'e' :: '"' :: [] from rfl,
    show strChars "content" = '"' :: 'c' :: 'o' :: 'n' :: 't' :: 'e' :: 'n' :: 't' :: '"' :: [] from rfl,
    escChar] at hp
  rw [hp _ (by omega)]
  simp [msgOfPairs, lookupLast]

/-- A serialized turn is nonempty. -/
theorem one_le_msgChars_length (m : Msg) : 1 ≤ (msgChars m).length := by
  rw [msgChars]
  simp

/-- The serialized body of a list of turns is at least as long as the list. -/
theorem length_le_dumpChars (ms : List Msg) : ms.length ≤ (dumpChars ms).length := by
  induction ms with
  | nil => simp [dumpChars]
  | cons m ms ih =>
    cases ms with
    | nil =>
      have h := one_le_msgChars_length m
      simp [dumpChars]
      omega
    | cons m2 ms2 =>
      have h := one_le_msgChars_length m
      simp [dumpChars] at ih ⊢
      omega

/-- A serialized nonempty list of turns starts with an opening brace. -/
theorem dumpChars_cons_append (m : Msg) (ms : List Msg) (l : List Char) :
    ∃ t, dumpChars (m :: ms) ++ l = '{' :: t := by
  cases ms with
  | nil =>
    rw [show dumpChars [m] = msgChars m from rfl, msgChars, List.cons_append]
    exact ⟨_, rfl⟩
  | cons m2 ms2 =>
    rw [show dumpChars (m :: m2 :: ms2) = msgChars m ++ ',' :: ' ' :: dumpChars (m2 :: ms2) from rfl,
      msgChars, List.cons_append, List.cons_append]
    exact ⟨_, rfl⟩

/-- The items parser undoes the serialization of a nonempty list of turns,
for any sufficient fuel, stopping at the closing bracket. -/
theorem parseItems_encode (ms : List Msg) : ∀ (fuel : Nat) (rest : List Char),
    ms ≠ [] → ms.length ≤ fuel →
    parseItems fuel (dumpChars ms ++ ']' :: rest) = some (ms, ']' :: rest) := by
  induction ms with
  | nil => intro fuel rest hne _; exact absurd rfl hne
  | cons m ms ih =>
    intro fuel rest _ hfuel
    rw [List.length_cons] at hfuel
    obtain ⟨f, rfl⟩ : ∃ f, fuel = f + 1 := ⟨fuel - 1, by omega⟩
    rw [parseItems]
    cases ms with
    | nil =>
      rw [show dumpChars [m] = msgChars m from rfl, parseMsg_encode]
      simp [skipWs, isWs]
    | cons m2 ms2 =>
      rw [show dumpChars (m :: m2 :: ms2) = msgChars m ++ ',' :: ' ' :: dumpChars (m2 :: ms2)
        from rfl, List.append_assoc, List.cons_append, List.cons_append, parseMsg_encode]
      obtain ⟨t, ht⟩ := dumpChars_cons_append m2 ms2 (']' :: rest)
      have hlen : (m2 :: ms2).length ≤ f := by
        simp only [List.length_cons] at hfuel ⊢
        omega
      clear hfuel
      have hih := ih f rest (by simp) hlen
      simp only [skipWs_cons_false _ (by decide : isWs ',' = false), skipWs_space, ht,
        skipWs_cons_false _ (by decide : isWs '{' = false)]
      rw [← ht, hih]

/-- The central serialization fact: reading back the exact bytes `json.dump`
wrote recovers the original list of turns. -/
theorem loads_dumps (ms : List Msg) : loads (dumps ms) = some ms := by
  cases ms with
  | nil => rfl
  | cons m ms2 =>
    rw [loads]
    have hdata : (dumps (m :: ms2)).data = '[' :: (dumpChars (m :: ms2) ++ ']' :: []) := by
      rw [dumps]
      simp
    rw [hdata, skipWs_cons_false _ (by decide)]
    obtain ⟨t, ht⟩ := dumpChars_cons_append m ms2 (']' :: [])
    have hbound : (m :: ms2).length ≤ ('{' :: t).length + 1 := by
      have h1 := length_le_dumpChars (m :: ms2)
      have h2 : (dumpChars (m :: ms2)).length ≤ ('{' :: t).length := by
        rw [← ht]
        simp
      omega
    simp only [ht, skipWs_cons_false _ (by decide : isWs '{' = false)]
    split
    · rename_i heq
      simp at heq
    · rw [← ht, parseItems_encode _ _ _ (by simp)
        (by have h1 := length_le_dumpChars (m :: ms2); simp at h1 ⊢; omega)]
      simp [skipWs]

/-! ## Claims -/

/-- C1: for every input and every behaviour of the remote call,
`get_response` returns a string (totality is by type: `getResponse` is a
total function into `String × List Msg`); whenever the call raises, the
returned string is `"Error: "` followed by the exception text, so it starts
with `"Error: "`. -/
theorem C1_error_reply (model : String → Except String String) (cbHist : List Msg)
    (u e : String)
    (h : model (renderPrompt (cbHist ++ [⟨"user", u⟩])) = .error e) :
    (getResponse model cbHist u).1 = "Error: " ++ e ∧
    "Error: ".data <+: (getResponse model cbHist u).1.data := by
  have h1 : (getResponse model cbHist u).1 = "Error: " ++ e := by
    simp [getResponse, h]
  refine ⟨h1, ?_⟩
  rw [h1]
  exact ⟨e.data, rfl⟩

/-- C1 witness: a mocked generator that throws yields a string starting
with `"Error: "`. -/
theorem C1_witness :
    (getResponse (fun _ => Except.error "boom") [] "hi").1 = "Error: " ++ "boom" ∧
    "Error: ".data <+: (getResponse (fun _ => Except.error "boom") [] "hi").1.data :=
  C1_error_reply (fun _ => Except.error "boom") [] "hi" "boom" rfl

/-- C2: `save_history` followed by `load_history` yields back exactly the
saved sequence of turns, in order, with the same role and content in each
(the pair holds the session history and the synced `chat_history`, both set
to the loaded turns). -/
theorem C2_save_load_round_trip (st : AppState) (cb : List Msg) :
    loadHistory (saveHistory st).file cb = .ok (st.session, st.session) := by
  simp [saveHistory, loadHistory, loads_dumps]

/-- C3 counterexample: after one successful exchange from an empty history,
not every stored turn has role `"user"` or `"assistant"` — the generated
turn is stored with role `"bot"` (lines 28 and 102 of `main.py`). -/
theorem C3_counterexample :
    ¬ (∀ t ∈ (getResponse (fun _ => Except.ok "hello") [] "hi").2,
        t.role = "user" ∨ t.role = "assistant") := by
  decide

/-- Every turn of a history has role `"user"` or `"bot"` — the two role
literals the program ever writes. -/
def RolesOk (h : List Msg) : Prop :=
  ∀ t ∈ h, t.role = "user" ∨ t.role = "bot"

/-- C3 amended: every turn created or stored by the program has role
`"user"` or `"bot"` (not `"assistant"`): the input handler and
`get_response` preserve this invariant of both histories for every model
behaviour. -/
theorem C3_roles_user_or_bot (model : String → Except String String)
    (st : AppState) (u : String)
    (hs : RolesOk st.session) (hc : RolesOk st.cbHist) :
    RolesOk (sendMessage model st u).session ∧
    RolesOk (sendMessage model st u).cbHist := by
  unfold sendMessage
  split
  · exact ⟨hs, hc⟩
  unfold getResponse saveHistory
  cases h : model (renderPrompt (st.cbHist ++ [⟨"user", u⟩])) with
  | ok t =>
    simp only [h]
    constructor
    · intro x hx
      simp at hx
      rcases hx with hx | hx | hx
      · exact hs x hx
      · simp [hx]
      · simp [hx]
    · intro x hx
      simp at hx
      rcases hx with hx | hx | hx
      · exact hc x hx
      · simp [hx]
      · simp [hx]
  | error e =>
    simp only [h]
    constructor
    · intro x hx
      simp at hx
      rcases hx with hx | hx | hx
      · exact hs x hx
      · simp [hx]
      · simp [hx]
    · intro x hx
      simp at hx
      rcases hx with hx | hx
      · exact hc x hx
      · simp [hx]

/-- C3 amended witness: one successful exchange from the empty state keeps
all roles in `{user, bot}`. -/
theorem C3_roles_witness :
    RolesOk (sendMessage (fun _ => Except.ok "hello") ⟨[], [], none⟩ "hi").session ∧
    RolesOk (sendMessage (fun _ => Except.ok "hello") ⟨[], [], none⟩ "hi").cbHist :=
  C3_roles_user_or_bot (fun _ => Except.ok "hello") ⟨[], [], none⟩ "hi"
    (by simp [RolesOk]) (by simp [RolesOk])

/-- C4: `get_response` renders each turn of the (user-extended) history as
`role: content`, joins them with single newlines, sends exactly that string
to the model, and on success returns the model's text unchanged. -/
theorem C4_prompt_and_success (model : String → Except String String)
    (h : List Msg) (u t : String)
    (hok : model (renderPrompt (h ++ [⟨"user", u⟩])) = .ok t) :
    (getResponse model h u).1 = t ∧
    renderPrompt (h ++ [⟨"user", u⟩]) =
      String.intercalate "\n"
        (List.map (fun m => m.role ++ ": " ++ m.content) (h ++ [(⟨"user", u⟩ : Msg)])) := by
  constructor
  · simp [getResponse, hok]
  · rfl

/-- C4 witness: with a model answering `"yo"`, the reply is `"yo"`. -/
theorem C4_witness :
    (getResponse (fun _ => Except.ok "yo")
      ([⟨"user", "a"⟩, ⟨"bot", "b"⟩] : List Msg) "hi").1 = "yo" ∧
    renderPrompt (([⟨"user", "a"⟩, ⟨"bot", "b"⟩] : List Msg) ++ [⟨"user", "hi"⟩]) =
      String.intercalate "\n"
        (List.map (fun m => m.role ++ ": " ++ m.content)
          (([⟨"user", "a"⟩, ⟨"bot", "b"⟩] : List Msg) ++ [(⟨"user", "hi"⟩ : Msg)])) :=
  C4_prompt_and_success (fun _ => Except.ok "yo")
    ([⟨"user", "a"⟩, ⟨"bot", "b"⟩] : List Msg) "hi" "yo" rfl

/-- C5 counterexample: an existing but malformed history file is not
treated as "no history" — `json.load` raises and `load_history` propagates
the exception (modelled as `.error ()`), instead of yielding the empty
sequence. -/
theorem C5_counterexample :
    loadHistory (some "not json") [] = .error () := by
  rfl

/-- C5 amended: `load_history` yields the empty sequence exactly when no
persisted file exists; when a file exists but its contents do not parse,
the decode exception propagates out of `load_history` instead of being
treated as "no history". -/
theorem C5_load_missing_and_malformed (cb : List Msg) :
    loadHistory none cb = .ok ([], cb) ∧
    ∀ s, loads s = none → loadHistory (some s) cb = .error () := by
  refine ⟨rfl, ?_⟩
  intro s hs
  simp [loadHistory, hs]

/-- C5 amended witness: with no file the load yields no turns; with the
file contents `"not json"` it raises. -/
theorem C5_witness :
    loadHistory none [] = .ok ([], []) ∧
    loadHistory (some "not json") [] = .error () :=
  ⟨(C5_load_missing_and_malformed []).1,
   (C5_load_missing_and_malformed []).2 "not json" rfl⟩

/-- C6: clearing removes the backing file, and a subsequent load yields the
empty sequence of turns. -/
theorem C6_clear_then_load (st : AppState) (cb : List Msg) :
    (clearHistory st).file = none ∧
    loadHistory (clearHistory st).file cb = .ok ([], cb) := by
  exact ⟨rfl, rfl⟩

/-- C7 counterexample: after a failed model call the in-memory states
disagree — the session history carries the `"Error: ..."` bot turn while
the ChatBot's `chat_history` got only the user turn — so the persisted file
cannot agree with both. -/
theorem C7_counterexample :
    (sendMessage (fun _ => Except.error "boom") ⟨[], [], none⟩ "hi").session ≠
    (sendMessage (fun _ => Except.error "boom") ⟨[], [], none⟩ "hi").cbHist := by
  decide

/-- C7 amended: after every save the file is byte-for-byte the UI session
history serialized as a JSON array of turns; the ChatBot's `chat_history`
additionally agrees whenever the histories agreed before and the model call
succeeded (after a failed call it lacks the error turn). -/
theorem C7_file_matches_session (model : String → Except String String)
    (st : AppState) (u : String) (hne : u ≠ "") :
    (sendMessage model st u).file = some (dumps (sendMessage model st u).session) ∧
    (∀ t, model (renderPrompt (st.cbHist ++ [⟨"user", u⟩])) = Except.ok t →
      st.session = st.cbHist →
      (sendMessage model st u).session = (sendMessage model st u).cbHist) := by
  constructor
  · simp [sendMessage, saveHistory, hne]
  · intro t hok hagree
    simp [sendMessage, saveHistory, getResponse, hne, hok, hagree]

/-- C7 amended witness: one successful exchange from the empty state keeps
file, session history and `chat_history` in agreement. -/
theorem C7_witness :
    (sendMessage (fun _ => Except.ok "yo") ⟨[], [], none⟩ "hi").file =
      some (dumps (sendMessage (fun _ => Except.ok "yo") ⟨[], [], none⟩ "hi").session) ∧
    (sendMessage (fun _ => Except.ok "yo") ⟨[], [], none⟩ "hi").session =
      (sendMessage (fun _ => Except.ok "yo") ⟨[], [], none⟩ "hi").cbHist :=
  ⟨(C7_file_matches_session (fun _ => Except.ok "yo") ⟨[], [], none⟩ "hi" (by decide)).1,
   (C7_file_matches_session (fun _ => Except.ok "yo") ⟨[], [], none⟩ "hi" (by decide)).2
     "yo" rfl rfl⟩

/-- C8: a successful exchange appends exactly two turns to each history —
the user turn then the generated turn, in that order — and leaves every
previously stored turn unchanged in its original position. -/
theorem C8_success_appends_two (model : String → Except String String)
    (st : AppState) (u t : String) (hne : u ≠ "")
    (hok : model (renderPrompt (st.cbHist ++ [⟨"user", u⟩])) = .ok t) :
    (sendMessage model st u).session = st.session ++ [⟨"user", u⟩, ⟨"bot", t⟩] ∧
    (sendMessage model st u).cbHist = st.cbHist ++ [⟨"user", u⟩, ⟨"bot", t⟩] := by
  simp [sendMessage, saveHistory, getResponse, hne, hok]

/-- C8 witness: a successful exchange on a one-turn history appends the
user turn then the generated turn after the existing turn. -/
theorem C8_witness :
    (sendMessage (fun _ => Except.ok "yo") ⟨[⟨"user", "old"⟩], [⟨"user", "old"⟩], none⟩
        "hi").session = [⟨"user", "old"⟩] ++ [⟨"user", "hi"⟩, ⟨"bot", "yo"⟩] ∧
    (sendMessage (fun _ => Except.ok "yo") ⟨[⟨"user", "old"⟩], [⟨"user", "old"⟩], none⟩
        "hi").cbHist = [⟨"user", "old"⟩] ++ [⟨"user", "hi"⟩, ⟨"bot", "yo"⟩] :=
  C8_success_appends_two (fun _ => Except.ok "yo")
    ⟨[⟨"user", "old"⟩], [⟨"user", "old"⟩], none⟩ "hi" "yo" (by decide) rfl

/-- C9: with `GEMINI_API_KEY` unset (and likewise set to the empty string,
which `if not API_KEY:` also treats as missing), `main` shows the error
banner and returns without constructing `ChatBot` or `ChatInterface` and
without any conversation operation, whatever the persisted file holds. -/
theorem C9_missing_key_config_error (file : Option String) :
    mainStartup none file = .configError ∧
    mainStartup (some "") file = .configError := by
  exact ⟨rfl, rfl⟩

/-- C10: a failed remote call is not atomic: the ChatBot's `chat_history`
keeps the appended user turn (and gains no assistant turn), while the UI
handler appends the returned `"Error: ..."` string as an ordinary bot turn
and persists the resulting session history to the file. -/
theorem C10_failure_non_atomic (model : String → Except String String)
    (st : AppState) (u e : String) (hne : u ≠ "")
    (herr : model (renderPrompt (st.cbHist ++ [⟨"user", u⟩])) = .error e) :
    (sendMessage model st u).cbHist = st.cbHist ++ [⟨"user", u⟩] ∧
    (sendMessage model st u).session =
      st.session ++ [⟨"user", u⟩, ⟨"bot", "Error: " ++ e⟩] ∧
    (sendMessage model st u).file =
      some (dumps (st.session ++ [⟨"user", u⟩, ⟨"bot", "Error: " ++ e⟩])) := by
  simp [sendMessage, saveHistory, getResponse, hne, herr]

/-- C10 witness: a failing call from the empty state leaves the user turn
in `chat_history`, stores the error string as a bot turn, and saves it. -/
theorem C10_witness :
    (sendMessage (fun _ => Except.error "boom") ⟨[], [], none⟩ "hi").cbHist =
      [] ++ [⟨"user", "hi"⟩] ∧
    (sendMessage (fun _ => Except.error "boom") ⟨[], [], none⟩ "hi").session =
      [] ++ [⟨"user", "hi"⟩, ⟨"bot", "Error: " ++ "boom"⟩] ∧
    (sendMessage (fun _ => Except.error "boom") ⟨[], [], none⟩ "hi").file =
      some (dumps ([] ++ [⟨"user", "hi"⟩, ⟨"bot", "Error: " ++ "boom"⟩])) :=
  C10_failure_non_atomic (fun _ => Except.error "boom") ⟨[], [], none⟩ "hi" "boom"
    (by decide) rfl
